import Mathlib

/-!
Verification of the Curio file-change detection and reconciliation engine.

Shallow embedding of `useFileWatcher` (the dual-channel coalescing watcher)
and the app-side reconciliation callback `handleFileChange` from `App.vue`.
JavaScript `mtime` values (`getTime()` results, possibly `null`) are modelled
as `Option Int`; file contents (compared with `===`) as `String`; fallible
asynchronous calls (`stat`, `read_file`, `watchImmediate`) as `Except`/inputs
supplied to the step functions; `setTimeout`/`setInterval`/`watchImmediate`
handles as `Nat` identifiers drawn from a fresh-handle counter.
-/

namespace Curio

/-- Truthiness of the three flags the classifier inspects on a raw
notification's `event.type` (`remove`, `create`, `modify`); a missing or
unrecognized `type` object has all three false. -/
structure EventType where
  remove : Bool
  create : Bool
  modify : Bool
deriving DecidableEq, Repr

/-- The simple event categories produced by `categorizeEvent`. -/
inductive Category where
  | created
  | modified
  | deleted
deriving DecidableEq, Repr

/-- The net actions produced by coalescing (and emitted by the poll loop). -/
inductive Action where
  | modified
  | deleted
deriving DecidableEq, Repr

/-- Embedding of `categorizeEvent`: remove ↦ deleted, else create ↦
created, else modify ↦ modified, else (unknown) ↦ modified. -/
def categorizeEvent (e : EventType) : Category :=
  if e.remove then Category.deleted
  else if e.create then Category.created
  else if e.modify then Category.modified
  else Category.modified

/-- True exactly when `categorizeEvent` reaches its fall-through branch, the
one that executes `log(\x7bUnknown event type ...\x7d)`: no flag of the raw
notification is set. -/
def categorizeLogsAnomaly (e : EventType) : Bool :=
  !e.remove && !e.create && !e.modify

/-- One step of the scan inside `coalesceEvents`: a `deleted` event sets
`hasDelete := true` and resets `hasCreateAfterDelete := false`; a `created`
event with `hasDelete` set records the recreation; everything else leaves the
flags alone.  The pair is `(hasDelete, hasCreateAfterDelete)`. -/
def coalesceStep : Bool × Bool → Category → Bool × Bool
  | _, Category.deleted => (true, false)
  | (d, c), Category.created => if d then (d, true) else (d, c)
  | s, Category.modified => s

/-- Embedding of `coalesceEvents`: scan the categorized events in
arrival order and return `deleted` iff the file was deleted at some point and
not recreated afterwards; otherwise `modified`. -/
def coalesceEvents (events : List Category) : Action :=
  let s := events.foldl coalesceStep (false, false)
  if s.1 && !s.2 then Action.deleted else Action.modified

/-- Spec-side reading of the deletion condition: the sequence contains a
`deleted` event after which (i.e. after the last `deleted`) no `created`
event occurs. -/
def deletedNotRecreated (events : List Category) : Prop :=
  ∃ l r, events = l ++ Category.deleted :: r ∧
    Category.deleted ∉ r ∧ Category.created ∉ r

lemma deletedNotRecreated_nil : ¬ deletedNotRecreated [] := by
  rintro ⟨l, r, heq, -, -⟩
  exact (List.append_ne_nil_of_right_ne_nil l (List.cons_ne_nil _ r)) heq.symm

lemma deletedNotRecreated_cons_ne (e : Category) (evts : List Category)
    (h : e ≠ Category.deleted) :
    deletedNotRecreated (e :: evts) ↔ deletedNotRecreated evts := by
  constructor
  · rintro ⟨l, r, heq, hd, hc⟩
    cases l with
    | nil =>
      rw [List.nil_append] at heq
      exact absurd (List.head_eq_of_cons_eq heq) h
    | cons x l' =>
      rw [List.cons_append] at heq
      exact ⟨l', r, List.tail_eq_of_cons_eq heq, hd, hc⟩
  · rintro ⟨l, r, heq, hd, hc⟩
    exact ⟨e :: l, r, by rw [heq, List.cons_append], hd, hc⟩

lemma deletedNotRecreated_cons_del (evts : List Category) :
    deletedNotRecreated (Category.deleted :: evts) ↔
      deletedNotRecreated evts ∨
        (Category.deleted ∉ evts ∧ Category.created ∉ evts) := by
  constructor
  · rintro ⟨l, r, heq, hd, hc⟩
    cases l with
    | nil =>
      rw [List.nil_append] at heq
      right
      rw [← List.tail_eq_of_cons_eq heq] at hd hc
      exact ⟨hd, hc⟩
    | cons x l' =>
      rw [List.cons_append] at heq
      exact Or.inl ⟨l', r, List.tail_eq_of_cons_eq heq, hd, hc⟩
  · rintro (⟨l, r, heq, hd, hc⟩ | ⟨hd, hc⟩)
    · exact ⟨Category.deleted :: l, r, by rw [heq, List.cons_append], hd, hc⟩
    · exact ⟨[], evts, rfl, hd, hc⟩

/-- Invariant of the flag scan inside `coalesceEvents`, generalized over the
starting flag state: the scan ends with `hasDelete = true` and
`hasCreateAfterDelete = false` exactly when the remaining events contain an
unrecreated deletion, or contain neither `deleted` nor `created` while the
flags already were `(true, false)`. -/
lemma coalesce_foldl_spec (events : List Category) : ∀ s : Bool × Bool,
    ((events.foldl coalesceStep s).1 = true ∧
      (events.foldl coalesceStep s).2 = false) ↔
    (deletedNotRecreated events ∨
      (Category.deleted ∉ events ∧ Category.created ∉ events ∧
        s.1 = true ∧ s.2 = false)) := by
  induction events with
  | nil =>
    intro s
    simp [deletedNotRecreated_nil]
  | cons e evts ih =>
    intro s
    rw [List.foldl_cons, ih]
    cases e with
    | deleted =>
      rw [deletedNotRecreated_cons_del]
      constructor
      · rintro (h | ⟨hd, hc, -, -⟩)
        · exact Or.inl (Or.inl h)
        · exact Or.inl (Or.inr ⟨hd, hc⟩)
      · rintro ((h | ⟨hd, hc⟩) | ⟨hd, -, -⟩)
        · exact Or.inl h
        · exact Or.inr ⟨hd, hc, rfl, rfl⟩
        · exact absurd (List.mem_cons_self _ _) hd
    | created =>
      rw [deletedNotRecreated_cons_ne _ _ (by simp)]
      constructor
      · rintro (h | ⟨hd, hc, h1, h2⟩)
        · exact Or.inl h
        · obtain ⟨d, c⟩ := s
          simp only [coalesceStep] at h1 h2
          revert h1 h2
          rcases d with - | - <;> simp
      · rintro (h | ⟨-, hc, -, -⟩)
        · exact Or.inl h
        · exact absurd (List.mem_cons_self _ _) hc
    | modified =>
      rw [deletedNotRecreated_cons_ne _ _ (by simp)]
      constructor
      · rintro (h | ⟨hd, hc, h1, h2⟩)
        · exact Or.inl h
        · exact Or.inr ⟨by simp [hd], by simp [hc], h1, h2⟩
      · rintro (h | ⟨hd, hc, h1, h2⟩)
        · exact Or.inl h
        · refine Or.inr ⟨fun hm => hd (List.mem_cons_of_mem _ hm),
            fun hm => hc (List.mem_cons_of_mem _ hm), h1, h2⟩

/-- C1 — The coalescer's net action is `deleted` iff the window's event
sequence contains a `deleted` event with no `created` event after the last
`deleted`; in every other case the net action is `modified`. -/
theorem coalesceEvents_deleted_iff (events : List Category) :
    (coalesceEvents events = Action.deleted ↔ deletedNotRecreated events) ∧
    (coalesceEvents events = Action.modified ↔ ¬ deletedNotRecreated events) := by
  have hmain : coalesceEvents events = Action.deleted ↔
      deletedNotRecreated events := by
    unfold coalesceEvents
    rcases h : events.foldl coalesceStep (false, false) with ⟨d, c⟩
    have hs := (coalesce_foldl_spec events (false, false)).symm
    rw [h] at hs
    simp only [Bool.false_eq_true, and_false, false_and, or_false] at hs
    rcases d with - | - <;> rcases c with - | - <;> simp_all
  refine ⟨hmain, ?_⟩
  rw [← hmain]
  cases h : coalesceEvents events <;> simp

/-- The module-level mutable state of `useFileWatcher`.  `processTimer`,
`pollingTimer` and `unwatch` hold the identifiers of the pending coalescing
timeout, the poll interval and the native-watcher subscription (`null` ↦
`none`); `nextHandle` is the allocator for fresh identifiers, so a handle
created by a later call is always numerically larger than every earlier one. -/
structure WState where
  eventQueue : List EventType
  processTimer : Option Nat
  pollingTimer : Option Nat
  unwatch : Option Nat
  mtime : Option Int
  hasCallback : Bool
  currentFilePath : Option String
  isWatching : Bool
  watcherError : Option String
  nextHandle : Nat
deriving DecidableEq, Repr

/-- The state right after the composable is created: every handle `null`,
empty queue, no identity, not watching. -/
def WState.init : WState :=
  { eventQueue := []
    processTimer := none
    pollingTimer := none
    unwatch := none
    mtime := none
    hasCallback := false
    currentFilePath := none
    isWatching := false
    watcherError := none
    nextHandle := 0 }

/-- Embedding of `stopPolling`: clear the poll interval if one is set. -/
def stopPolling (st : WState) : WState :=
  { st with pollingTimer := none }

/-- Embedding of `startPolling`: `stopPolling()` then `setInterval(pollForChanges,
POLL_MS)`, which returns a fresh handle. -/
def startPolling (st : WState) : WState :=
  let st := stopPolling st
  { st with pollingTimer := some st.nextHandle, nextHandle := st.nextHandle + 1 }

/-- Embedding of `stopWatching`: cancel the coalescing timeout, stop polling, drop the
native-watcher subscription (a failing `unwatchFn()` is caught and only
logged), then reset the queue, identity, callback, path and `isWatching`.
`watcherError` is left untouched by the source, and so is it here. -/
def stopWatching (st : WState) : WState :=
  { st with
    processTimer := none
    pollingTimer := none
    unwatch := none
    eventQueue := []
    mtime := none
    hasCallback := false
    currentFilePath := none
    isWatching := false }

/-- Embedding of `enqueueEvent`: push the raw event and reset the coalescing timeout
(clear the pending one, schedule a fresh one). -/
def enqueueEvent (st : WState) (e : EventType) : WState :=
  { st with
    eventQueue := st.eventQueue ++ [e]
    processTimer := some st.nextHandle
    nextHandle := st.nextHandle + 1 }

/-- Embedding of `processEventQueue`, with the outcome of the `stat(currentFilePath)`
call it may perform supplied as `statRes` (`.ok m` = success with
`info.mtime?.getTime() ?? null` equal to `m`; `.error` = the call threw).
Returns the new state together with the list of `userCallback` invocations
(at most one `\x7b type: action \x7d`). -/
def processEventQueue (st : WState) (statRes : Except String (Option Int)) :
    WState × List Action :=
  if st.eventQueue = [] then (st, [])
  else
    let events := st.eventQueue.map categorizeEvent
    let st := { st with eventQueue := [] }
    let action := coalesceEvents events
    let st :=
      if action ≠ Action.deleted ∧ st.currentFilePath ≠ none then
        match statRes with
        | Except.ok m => { st with mtime := m }
        | Except.error _ => st
      else st
    (st, if st.hasCallback then [action] else [])

/-- Embedding of `pollForChanges`, with the outcome of its `stat` call supplied as
`statRes`.  Returns the new state and the list of `userCallback`
invocations. -/
def pollForChanges (st : WState) (statRes : Except String (Option Int)) :
    WState × List Action :=
  match st.currentFilePath with
  | none => (st, [])
  | some _ =>
    match statRes with
    | Except.ok newMtime =>
      match st.mtime, newMtime with
      | some t, some m =>
        if m ≠ t then
          let st := { st with mtime := some m }
          (st, if st.hasCallback then [Action.modified] else [])
        else (st, [])
      | _, _ => (st, [])
    | Except.error _ =>
      match st.mtime with
      | some _ =>
        let st := { st with mtime := none }
        (st, if st.hasCallback then [Action.deleted] else [])
      | none => (st, [])

/-- Embedding of `startWatching(filePath, callback)`, with the outcomes of its two
awaited calls supplied: `statRes` for the initial `stat(filePath)` (`.ok m`
= success with mtime `m`) and `regRes` for `watchImmediate` (`.error e` =
registration threw `e`).  It first runs `stopWatching`, stores the path and
callback, then: on stat failure or registration failure the catch block
records `Failed to start: e` in `watcherError` and sets `isWatching :=
false`; on success it stores the subscription handle, starts polling, and
sets `isWatching := true`, `watcherError := none`. -/
def startWatching (st0 : WState) (filePath : String)
    (statRes : Except String (Option Int)) (regRes : Except String Unit) :
    WState :=
  let st := stopWatching st0
  let st := { st with currentFilePath := some filePath, hasCallback := true }
  match statRes with
  | Except.error e =>
    { st with watcherError := some ("Failed to start: " ++ e), isWatching := false }
  | Except.ok m =>
    let st := { st with mtime := m }
    match regRes with
    | Except.error e =>
      { st with watcherError := some ("Failed to start: " ++ e), isWatching := false }
    | Except.ok _ =>
      let st := { st with unwatch := some st.nextHandle, nextHandle := st.nextHandle + 1 }
      let st := startPolling st
      { st with isWatching := true, watcherError := none }

/-- The record returned by `getWatcherStatus`. -/
structure WatcherStatus where
  isWatching : Bool
  error : Option String
  filePath : Option String
deriving DecidableEq, Repr

/-- Embedding of `getWatcherStatus`: a pure read of the health fields. -/
def getWatcherStatus (st : WState) : WatcherStatus :=
  { isWatching := st.isWatching
    error := st.watcherError
    filePath := st.currentFilePath }

/-- The handle identifiers currently live in the watcher state: the pending
coalescing timeout, the poll interval, and the channel subscription. -/
def liveHandles (st : WState) : List Nat :=
  st.processTimer.toList ++ st.pollingTimer.toList ++ st.unwatch.toList

/-- The slice of `App.vue` state that `handleFileChange` touches:
`rawContent` is the last delivered content (the dedup reference), `error`
and `hasContent` are the UI flags its deleted branch sets. -/
structure AppState where
  rawContent : String
  hasContent : Bool
  error : Option String
deriving DecidableEq, Repr

/-- The externally visible steps `handleFileChange` takes: `render c` is the
`setContent(c)` re-render, `stopSession` is its `await stopWatching()`. -/
inductive AppEffect where
  | render (c : String)
  | stopSession
deriving DecidableEq, Repr

/-- Embedding of `handleFileChange` from `App.vue`, with the outcome of its
`invoke('read_file')` call supplied as `readRes`.  On `deleted` it sets the
error message, hides the content and stops the session.  On `modified` it
re-reads; a failed read is caught and only logged; if the content equals the
last delivered `rawContent` it returns without re-rendering; otherwise it
stores the content and re-renders. -/
def handleFileChange (app : AppState) (etype : Action)
    (readRes : Except String String) : AppState × List AppEffect :=
  match etype with
  | Action.deleted =>
    ({ app with error := some "The file has been deleted or moved.", hasContent := false },
      [AppEffect.stopSession])
  | Action.modified =>
    match readRes with
    | Except.error _ => (app, [])
    | Except.ok content =>
      if content = app.rawContent then (app, [])
      else ({ app with rawContent := content }, [AppEffect.render content])

/-- Apply the engine-side consequences of the callback's effects: a
`stopSession` effect runs `stopWatching` on the watcher state. -/
def applyEffects (st : WState) (effs : List AppEffect) : WState :=
  effs.foldl
    (fun s e =>
      match e with
      | AppEffect.stopSession => stopWatching s
      | AppEffect.render _ => s)
    st

/-- One full reconciliation of the notification channel: the coalescing
timer fires (`processEventQueue` with its stat outcome `statRes`), and the
action — if one is delivered — is handled by the registered callback
`handleFileChange` (with its read outcome `readRes`), whose effects feed
back into the watcher state.  Returns (watcher state, app state, effects). -/
def reconcileChannel (st : WState) (app : AppState)
    (statRes : Except String (Option Int)) (readRes : Except String String) :
    WState × AppState × List AppEffect :=
  let p := processEventQueue st statRes
  match p.2 with
  | [] => (p.1, app, [])
  | a :: _ =>
    let h := handleFileChange app a readRes
    (applyEffects p.1 h.2, h.1, h.2)

/-- One full reconciliation of the poll channel: `pollForChanges` with its
stat outcome, the delivered action (if any) handled by `handleFileChange`. -/
def reconcilePoll (st : WState) (app : AppState)
    (statRes : Except String (Option Int)) (readRes : Except String String) :
    WState × AppState × List AppEffect :=
  let p := pollForChanges st statRes
  match p.2 with
  | [] => (p.1, app, [])
  | a :: _ =>
    let h := handleFileChange app a readRes
    (applyEffects p.1 h.2, h.1, h.2)

/-- A sample active-session watcher state used to instantiate theorems with
hypotheses at concrete inputs. -/
def WState.sampleActive : WState :=
  { eventQueue := []
    processTimer := none
    pollingTimer := some 1
    unwatch := some 0
    mtime := some 100
    hasCallback := true
    currentFilePath := some "doc.md"
    isWatching := true
    watcherError := none
    nextHandle := 2 }

/-- C8 — a raw notification whose kind cannot be determined from its
`remove`/`create`/`modify` flags is classified as `modified` (fail-open) and
takes the anomalous-log branch; classification still returns an ordinary
category, so it is not an error. -/
theorem categorizeEvent_unknown (e : EventType)
    (hr : e.remove = false) (hc : e.create = false) (hm : e.modify = false) :
    categorizeEvent e = Category.modified ∧ categorizeLogsAnomaly e = true := by
  cases e
  simp_all [categorizeEvent, categorizeLogsAnomaly]

/-- Witness for C8 at the all-flags-false notification. -/
theorem categorizeEvent_unknown_witness :
    categorizeEvent ⟨false, false, false⟩ = Category.modified ∧
      categorizeLogsAnomaly ⟨false, false, false⟩ = true :=
  categorizeEvent_unknown ⟨false, false, false⟩ rfl rfl rfl

/-- C9 — classification priority is remove, then create, then modify: any
notification with `remove` set is `deleted` (even if `create`/`modify` are
also set), and any notification without `remove` but with `create` set is
`created` (even if `modify` is also set). -/
theorem categorizeEvent_priority (e : EventType) :
    (e.remove = true → categorizeEvent e = Category.deleted) ∧
    (e.remove = false → e.create = true → categorizeEvent e = Category.created) := by
  cases e
  constructor <;> intros <;> simp_all [categorizeEvent]

/-- Witness for C9: remove+create is `deleted`, create+modify is `created`. -/
theorem categorizeEvent_priority_witness :
    categorizeEvent ⟨true, true, false⟩ = Category.deleted ∧
      categorizeEvent ⟨false, true, true⟩ = Category.created :=
  ⟨(categorizeEvent_priority ⟨true, true, false⟩).1 rfl,
    (categorizeEvent_priority ⟨false, true, true⟩).2 rfl rfl⟩

/-- C4 — every poll tick of an active session: a successful stat whose
fingerprint differs from the tracked identity emits `modified` directly and
updates the identity; a failed stat with a prior identity emits `deleted`
and clears the identity; a failed stat with no prior identity does
nothing. -/
theorem pollForChanges_tick (st : WState) (p : String)
    (hp : st.currentFilePath = some p) (hcb : st.hasCallback = true) :
    (∀ t m, st.mtime = some t → m ≠ t →
        pollForChanges st (Except.ok (some m)) =
          ({ st with mtime := some m }, [Action.modified])) ∧
    (∀ t e, st.mtime = some t →
        pollForChanges st (Except.error e) =
          ({ st with mtime := none }, [Action.deleted])) ∧
    (∀ e, st.mtime = none → pollForChanges st (Except.error e) = (st, [])) := by
  refine ⟨?_, ?_, ?_⟩
  · intro t m ht hne
    simp [pollForChanges, hp, ht, hne, hcb]
  · intro t e ht
    simp [pollForChanges, hp, ht, hcb]
  · intro e ht
    simp [pollForChanges, hp, ht]

/-- Witness for C4 at the sample active state (tracked mtime 100): a stat
returning 200 yields `modified` with updated identity; a failing stat yields
`deleted` with cleared identity; a failing stat with no identity yields
nothing. -/
theorem pollForChanges_tick_witness :
    pollForChanges WState.sampleActive (Except.ok (some 200)) =
        ({ WState.sampleActive with mtime := some 200 }, [Action.modified]) ∧
    pollForChanges WState.sampleActive (Except.error "not found") =
        ({ WState.sampleActive with mtime := none }, [Action.deleted]) ∧
    pollForChanges { WState.sampleActive with mtime := none }
        (Except.error "not found") =
      ({ WState.sampleActive with mtime := none }, []) :=
  ⟨(pollForChanges_tick WState.sampleActive "doc.md" rfl rfl).1 100 200 rfl
      (by decide),
    (pollForChanges_tick WState.sampleActive "doc.md" rfl rfl).2.1 100
      "not found" rfl,
    (pollForChanges_tick { WState.sampleActive with mtime := none } "doc.md"
        rfl rfl).2.2 "not found" rfl⟩

/-- C10 — the poll loop emits `modified` only when the tracked mtime and the
newly observed mtime are both non-null and differ; a tick with no tracked
identity, or whose successful stat yields a null mtime, changes nothing and
invokes no callback. -/
theorem pollForChanges_null_guard (st : WState)
    (statRes : Except String (Option Int)) :
    (st.mtime = none → pollForChanges st statRes = (st, [])) ∧
    (pollForChanges st (Except.ok none) = (st, [])) ∧
    (Action.modified ∈ (pollForChanges st statRes).2 →
      ∃ t m, st.mtime = some t ∧ statRes = Except.ok (some m) ∧ m ≠ t) := by
  refine ⟨?_, ?_, ?_⟩
  · intro hnone
    unfold pollForChanges
    cases hpath : st.currentFilePath with
    | none => rfl
    | some p =>
      cases statRes with
      | error e => simp [hnone]
      | ok newMtime => cases newMtime <;> simp [hnone]
  · unfold pollForChanges
    cases hpath : st.currentFilePath with
    | none => rfl
    | some p => cases hmt : st.mtime <;> simp
  · intro hmem
    unfold pollForChanges at hmem
    cases hpath : st.currentFilePath with
    | none => rw [hpath] at hmem; simp at hmem
    | some p =>
      rw [hpath] at hmem
      cases statRes with
      | error e =>
        cases hmt : st.mtime <;> rw [hmt] at hmem <;>
          by_cases hcb : st.hasCallback = true <;> simp_all
      | ok newMtime =>
        cases hmt : st.mtime with
        | none => rw [hmt] at hmem; cases newMtime <;> simp_all
        | some t =>
          rw [hmt] at hmem
          cases newMtime with
          | none => simp_all
          | some m =>
            by_cases hne : m = t
            · simp [hne] at hmem
            · exact ⟨t, m, rfl, rfl, hne⟩

/-- Witness for C10 at concrete states: a no-identity tick and a
null-mtime-stat tick are no-ops, and an actually emitted `modified` comes
with both mtimes present and distinct. -/
theorem pollForChanges_null_guard_witness :
    pollForChanges { WState.sampleActive with mtime := none }
        (Except.ok (some 200)) =
      ({ WState.sampleActive with mtime := none }, []) ∧
    pollForChanges WState.sampleActive (Except.ok none) =
      (WState.sampleActive, []) ∧
    (∃ t m, WState.sampleActive.mtime = some t ∧
      (Except.ok (some m) : Except String (Option Int)) = Except.ok (some m) ∧
        m ≠ t) :=
  ⟨(pollForChanges_null_guard { WState.sampleActive with mtime := none }
        (Except.ok (some 200))).1 rfl,
    (pollForChanges_null_guard WState.sampleActive (Except.ok (some 200))).2.1,
    by
      obtain ⟨t, m, h1, -, h3⟩ :=
        (pollForChanges_null_guard WState.sampleActive
            (Except.ok (some 200))).2.2 (by decide)
      exact ⟨t, m, h1, rfl, h3⟩⟩

/-- C6 — `stopWatching` is idempotent (hence safe with no active session),
and afterwards the coalescing timeout, the poll interval and the channel
subscription are all cancelled: no handle of the session is live, and the
session is no longer watching. -/
theorem stopWatching_idempotent_cancels (st : WState) :
    stopWatching (stopWatching st) = stopWatching st ∧
    (stopWatching st).processTimer = none ∧
    (stopWatching st).pollingTimer = none ∧
    (stopWatching st).unwatch = none ∧
    liveHandles (stopWatching st) = [] ∧
    (stopWatching st).isWatching = false :=
  ⟨rfl, rfl, rfl, rfl, rfl, rfl⟩

/-- Every handle live after `startWatching` was freshly allocated by that
call: it is at least the caller's `nextHandle` counter value. -/
lemma startWatching_fresh (st : WState) (p : String)
    (s : Except String (Option Int)) (r : Except String Unit) :
    ∀ id ∈ liveHandles (startWatching st p s r), st.nextHandle ≤ id := by
  intro id hid
  cases s with
  | error e =>
    simp [startWatching, liveHandles, stopWatching] at hid
  | ok m =>
    cases r with
    | error e =>
      simp [startWatching, liveHandles, stopWatching] at hid
    | ok u =>
      simp [startWatching, startPolling, stopPolling, liveHandles,
        stopWatching] at hid
      rcases hid with h | h <;> omega

/-- C5 — a second `startWatching` first performs a full stop of the previous
session (it behaves exactly as if run from the stopped state), every handle
of the previous session is dead afterwards (so none of its timers can fire),
and every handle live afterwards belongs to the new call. -/
theorem startWatching_single_session (st : WState) (p : String)
    (s : Except String (Option Int)) (r : Except String Unit)
    (hwf : ∀ id ∈ liveHandles st, id < st.nextHandle) :
    startWatching st p s r = startWatching (stopWatching st) p s r ∧
    (∀ id ∈ liveHandles st, id ∉ liveHandles (startWatching st p s r)) ∧
    (∀ id ∈ liveHandles (startWatching st p s r), st.nextHandle ≤ id) := by
  refine ⟨rfl, ?_, startWatching_fresh st p s r⟩
  intro id hid hid'
  exact absurd (hwf id hid) (not_lt.mpr (startWatching_fresh st p s r id hid'))

/-- Witness for C5: starting twice from the initial state; the handles of the
first session (its subscription 0 and poll interval 1) are all dead in the
second session's state. -/
theorem startWatching_single_session_witness :
    (∀ id ∈ liveHandles
        (startWatching WState.init "a.md" (Except.ok (some 100))
          (Except.ok ())), id < (startWatching WState.init "a.md"
            (Except.ok (some 100)) (Except.ok ())).nextHandle) ∧
    (startWatching
        (startWatching WState.init "a.md" (Except.ok (some 100)) (Except.ok ()))
        "b.md" (Except.ok (some 200)) (Except.ok ()) =
      startWatching
        (stopWatching
          (startWatching WState.init "a.md" (Except.ok (some 100))
            (Except.ok ())))
        "b.md" (Except.ok (some 200)) (Except.ok ())) ∧
    (∀ id ∈ liveHandles
        (startWatching WState.init "a.md" (Except.ok (some 100))
          (Except.ok ())),
      id ∉ liveHandles
        (startWatching
          (startWatching WState.init "a.md" (Except.ok (some 100))
            (Except.ok ()))
          "b.md" (Except.ok (some 200)) (Except.ok ()))) := by
  have h := startWatching_single_session
    (startWatching WState.init "a.md" (Except.ok (some 100)) (Except.ok ()))
    "b.md" (Except.ok (some 200)) (Except.ok ()) (by decide)
  exact ⟨by decide, h.1, h.2.1⟩

/-- C7 — if the initial stat fails, or channel registration fails after a
successful stat, the session ends in the Error state: not watching, the
failure message captured in the health status, and neither the poll interval
nor the channel subscription ever started. -/
theorem startWatching_failure (st : WState) (p : String)
    (statRes : Except String (Option Int)) (regRes : Except String Unit)
    (h : (∃ e, statRes = Except.error e) ∨
      (∃ m e, statRes = Except.ok m ∧ regRes = Except.error e)) :
    (startWatching st p statRes regRes).isWatching = false ∧
    (∃ e, getWatcherStatus (startWatching st p statRes regRes) =
      { isWatching := false
        error := some ("Failed to start: " ++ e)
        filePath := some p }) ∧
    (startWatching st p statRes regRes).pollingTimer = none ∧
    (startWatching st p statRes regRes).unwatch = none ∧
    (startWatching st p statRes regRes).processTimer = none := by
  rcases h with ⟨e, he⟩ | ⟨m, e, hm, he⟩
  · subst he
    exact ⟨rfl, ⟨e, rfl⟩, rfl, rfl, rfl⟩
  · subst hm; subst he
    exact ⟨rfl, ⟨e, rfl⟩, rfl, rfl, rfl⟩

/-- Witness for C7: a failing initial stat, and a failing registration after
a successful stat, both starting from the sample active state. -/
theorem startWatching_failure_witness :
    ((startWatching WState.sampleActive "doc.md"
        (Except.error "permission denied") (Except.ok ())).isWatching = false ∧
      (∃ e, getWatcherStatus (startWatching WState.sampleActive "doc.md"
          (Except.error "permission denied") (Except.ok ())) =
        { isWatching := false
          error := some ("Failed to start: " ++ e)
          filePath := some "doc.md" }) ∧
      (startWatching WState.sampleActive "doc.md"
        (Except.error "permission denied") (Except.ok ())).pollingTimer = none ∧
      (startWatching WState.sampleActive "doc.md"
        (Except.error "permission denied") (Except.ok ())).unwatch = none ∧
      (startWatching WState.sampleActive "doc.md"
        (Except.error "permission denied") (Except.ok ())).processTimer = none) ∧
    ((startWatching WState.sampleActive "doc.md" (Except.ok (some 100))
        (Except.error "registration failed")).isWatching = false ∧
      (∃ e, getWatcherStatus (startWatching WState.sampleActive "doc.md"
          (Except.ok (some 100)) (Except.error "registration failed")) =
        { isWatching := false
          error := some ("Failed to start: " ++ e)
          filePath := some "doc.md" }) ∧
      (startWatching WState.sampleActive "doc.md" (Except.ok (some 100))
        (Except.error "registration failed")).pollingTimer = none ∧
      (startWatching WState.sampleActive "doc.md" (Except.ok (some 100))
        (Except.error "registration failed")).unwatch = none ∧
      (startWatching WState.sampleActive "doc.md" (Except.ok (some 100))
        (Except.error "registration failed")).processTimer = none) :=
  ⟨startWatching_failure WState.sampleActive "doc.md"
      (Except.error "permission denied") (Except.ok ())
      (Or.inl ⟨"permission denied", rfl⟩),
    startWatching_failure WState.sampleActive "doc.md" (Except.ok (some 100))
      (Except.error "registration failed")
      (Or.inr ⟨some 100, "registration failed", rfl, rfl⟩)⟩

/-- C2 — reconciling a `modified` net action whose re-read content equals
the last delivered content suppresses the re-render (no effect, caller state
unchanged) while still refreshing the tracked mtime; any further detection of
the same change is a no-op for the caller: the dedup check suppresses it for
any state already holding the content, and a poll tick observing the same
mtime emits nothing at all. -/
theorem modified_dedup_idempotent (st : WState) (app : AppState) (m : Int)
    (c : String)
    (hq : st.eventQueue ≠ [])
    (ha : coalesceEvents (st.eventQueue.map categorizeEvent) = Action.modified)
    (hcb : st.hasCallback = true)
    (hp : st.currentFilePath ≠ none)
    (hc : c = app.rawContent) :
    reconcileChannel st app (Except.ok (some m)) (Except.ok c) =
      ({ st with eventQueue := [], mtime := some m }, app, []) ∧
    (∀ app2 : AppState, app2.rawContent = c →
        handleFileChange app2 Action.modified (Except.ok c) = (app2, [])) ∧
    pollForChanges { st with eventQueue := [], mtime := some m }
        (Except.ok (some m)) =
      ({ st with eventQueue := [], mtime := some m }, []) := by
  refine ⟨?_, ?_, ?_⟩
  · unfold reconcileChannel processEventQueue
    simp [hq, ha, hp, hcb, handleFileChange, hc, applyEffects]
  · intro app2 h2
    simp [handleFileChange, h2]
  · obtain ⟨p, hpp⟩ := Option.ne_none_iff_exists'.mp hp
    simp [pollForChanges, hpp]

/-- Witness for C2 at a concrete burst: one `modify` notification, re-read
content equal to the already delivered content. -/
theorem modified_dedup_idempotent_witness :
    reconcileChannel
        { WState.sampleActive with eventQueue := [⟨false, false, true⟩] }
        { rawContent := "hello", hasContent := true, error := none }
        (Except.ok (some 200)) (Except.ok "hello") =
      ({ WState.sampleActive with eventQueue := [], mtime := some 200 },
        { rawContent := "hello", hasContent := true, error := none }, []) ∧
    (∀ app2 : AppState, app2.rawContent = "hello" →
        handleFileChange app2 Action.modified (Except.ok "hello") =
          (app2, [])) ∧
    pollForChanges
        { WState.sampleActive with eventQueue := [], mtime := some 200 }
        (Except.ok (some 200)) =
      ({ WState.sampleActive with eventQueue := [], mtime := some 200 }, []) :=
  modified_dedup_idempotent
    { WState.sampleActive with eventQueue := [⟨false, false, true⟩] }
    { rawContent := "hello", hasContent := true, error := none }
    200 "hello" (by decide) (by decide) rfl (by decide) rfl

/-- C3 — reconciling a `deleted` net action: through the notification
channel the engine step never consults the metadata sample (its result is
the same for every stat outcome), leaves the identity untouched rather than
updating it, and invokes the callback exactly once with `deleted`; the full
reconciliation (the callback stops the session) leaves the identity cleared
to absent.  Through the poll channel a deletion likewise clears the identity
and invokes the callback exactly once with `deleted`. -/
theorem deleted_reconciliation (st : WState) (app : AppState)
    (hq : st.eventQueue ≠ [])
    (ha : coalesceEvents (st.eventQueue.map categorizeEvent) = Action.deleted)
    (hcb : st.hasCallback = true) :
    (∀ s1 s2, processEventQueue st s1 = processEventQueue st s2) ∧
    (∀ s, (processEventQueue st s).1.mtime = st.mtime) ∧
    (∀ s, (processEventQueue st s).2 = [Action.deleted]) ∧
    (∀ s readRes,
        (reconcileChannel st app s readRes).1.mtime = none ∧
        (reconcileChannel st app s readRes).2.2 = [AppEffect.stopSession]) ∧
    (∀ st2 : WState, ∀ p e t, st2.currentFilePath = some p →
        st2.mtime = some t → st2.hasCallback = true →
        (pollForChanges st2 (Except.error e)).1.mtime = none ∧
        (pollForChanges st2 (Except.error e)).2 = [Action.deleted]) := by
  have hproc : ∀ s, processEventQueue st s =
      ({ st with eventQueue := [] }, [Action.deleted]) := by
    intro s
    unfold processEventQueue
    simp [hq, ha, hcb]
  refine ⟨?_, ?_, ?_, ?_, ?_⟩
  · intro s1 s2; rw [hproc s1, hproc s2]
  · intro s; rw [hproc s]
  · intro s; rw [hproc s]
  · intro s readRes
    unfold reconcileChannel
    rw [hproc s]
    simp [handleFileChange, applyEffects, stopWatching]
  · intro st2 p e t hpp ht hcb2
    simp [pollForChanges, hpp, ht, hcb2]

/-- Witness for C3 at a concrete burst: one `remove` notification in the
window, and a poll deletion from the sample active state. -/
theorem deleted_reconciliation_witness :
    ((processEventQueue
          { WState.sampleActive with eventQueue := [⟨true, false, false⟩] }
          (Except.ok (some 300))).2 = [Action.deleted] ∧
      (reconcileChannel
          { WState.sampleActive with eventQueue := [⟨true, false, false⟩] }
          { rawContent := "hello", hasContent := true, error := none }
          (Except.ok (some 300)) (Except.error "gone")).1.mtime = none) ∧
    (pollForChanges WState.sampleActive (Except.error "gone")).1.mtime =
        none ∧
    (pollForChanges WState.sampleActive (Except.error "gone")).2 =
      [Action.deleted] := by
  have h := deleted_reconciliation
    { WState.sampleActive with eventQueue := [⟨true, false, false⟩] }
    { rawContent := "hello", hasContent := true, error := none }
    (by decide) (by decide) rfl
  have hpoll := h.2.2.2.2 WState.sampleActive "doc.md" "gone" 100 rfl rfl rfl
  exact ⟨⟨h.2.2.1 (Except.ok (some 300)),
    (h.2.2.2.1 (Except.ok (some 300)) (Except.error "gone")).1⟩,
    hpoll.1, hpoll.2⟩

end Curio
